import Mathlib

set_option maxHeartbeats 1000000

/-!
Shallow embedding of the template-AST layers of the ng-morph repository:
the raw parse tree with its visitor infrastructure and position lookup
(src/nodes/ng-ast-node/template/tokenizer/ast.ts), and the mutable template
node tree with its text-mutation and offset-propagation protocol
(src/nodes/ng-ast-node/template/template-nodes.ts).
-/

/-- Text span of the external Span collaborator: a half-open offset range into
one text buffer, represented by its start offset together with its current
text, so that its length is the text length. It supports in-place text
replacement (which changes its own length) and directional shifting. -/
structure LocationSpan where
  start : Int
  text : String
deriving DecidableEq, Repr

def LocationSpan.getStart (s : LocationSpan) : Int := s.start

def LocationSpan.getLength (s : LocationSpan) : Nat := s.text.length

def LocationSpan.getEnd (s : LocationSpan) : Int := s.start + s.text.length

def LocationSpan.replaceText (s : LocationSpan) (newText : String) : LocationSpan :=
  { s with text := newText }

def LocationSpan.moveBy (s : LocationSpan) (d : Int) : LocationSpan :=
  { s with start := s.start + d }

namespace ast

/-- Raw parse-tree node (tokenizer/ast.ts): the closed set of six node kinds.
Fields not read by any embedded operation (the contributing token arrays, an
element's start source span, the extra source spans of expansions and
expansion cases) are omitted; an element's attribute list is a node list,
matching how the recursive visitor traverses it. -/
inductive Node where
  | Text (value : String) (locationSpan : LocationSpan)
  | Expansion (switchValue : String) (type : String) (cases : List Node)
      (locationSpan : LocationSpan)
  | ExpansionCase (value : String) (expression : List Node) (locationSpan : LocationSpan)
  | Attribute (name : String) (value : String) (locationSpan : LocationSpan)
  | Element (name : String) (attrs : List Node) (children : List Node)
      (locationSpan : LocationSpan) (endSourceSpan : Option LocationSpan)
  | Comment (value : Option String) (locationSpan : LocationSpan)

/-- The location span every raw node carries. -/
def Node.locationSpan : Node → LocationSpan
  | .Text _ ls => ls
  | .Expansion _ _ _ ls => ls
  | .ExpansionCase _ _ ls => ls
  | .Attribute _ _ ls => ls
  | .Element _ _ _ ls _ => ls
  | .Comment _ ls => ls

/-- Result of spanOf: the plain start and end offsets of a node's effective
extent. The source object's field is called end, a reserved word here, so the
second component is named stop. -/
structure Span where
  start : Int
  stop : Int
deriving DecidableEq, Repr

mutual

/-- Effective extent used by position lookup (spanOf in tokenizer/ast.ts):
start is the node's location start; end stays initialized to that same start
offset except for an element, where it becomes the start of the explicit end
source span when present, else the recursively computed end of the last child
when there are children. -/
def spanOf : Node → Span
  | .Element _ _ children ls endSS =>
    match endSS with
    | some e => ⟨ls.start, e.start⟩
    | none =>
      match lastChildEnd children with
      | some e => ⟨ls.start, e⟩
      | none => ⟨ls.start, ls.start⟩
  | n => ⟨n.locationSpan.start, n.locationSpan.start⟩

/-- End offset of the span of the last node of a list, if the list is
non-empty: the recursion spanOf performs on children[children.length - 1]. -/
def lastChildEnd : List Node → Option Int
  | [] => none
  | [n] => some (spanOf n).stop
  | _ :: n :: rest => lastChildEnd (n :: rest)

end

/-- End offset of spanOf as the specification words it: for an element, the
start of the explicit end-tag span when present, otherwise the recursively
computed end of its last child when it has children, otherwise the node's own
start; for every other kind the node's start offset (zero width). -/
def spanOfSpecStop : Node → Int
  | .Element _ _ children ls endSS =>
    match endSS with
    | some e => e.start
    | none =>
      match children.getLast? with
      | some last => (spanOf last).stop
      | none => ls.start
  | n => n.locationSpan.start

theorem lastChildEnd_eq_getLast (cs : List Node) :
    lastChildEnd cs = cs.getLast?.map (fun last => (spanOf last).stop) := by
  induction cs with
  | nil => rfl
  | cons n rest ih =>
    cases rest with
    | nil => rfl
    | cons m rest2 => simpa [lastChildEnd, List.getLast?_cons_cons] using ih

/-- C5: for every raw node, spanOf returns start = the node's start offset
and end = the explicit end-tag span start for an element that has one, else
the recursively computed end of the last child for an element with children,
else the node's own start; and a zero-width span at the node's start for
every non-element kind. -/
theorem c5_spanOf_cases (n : Node) :
    spanOf n = ⟨n.locationSpan.start, spanOfSpecStop n⟩ := by
  cases n with
  | Element name attrs children ls endSS =>
    cases endSS with
    | some e => simp [spanOf, spanOfSpecStop, Node.locationSpan]
    | none =>
      simp only [spanOf, spanOfSpecStop, Node.locationSpan, lastChildEnd_eq_getLast]
      cases children.getLast? with
      | none => simp
      | some last => simp
  | Text v ls => rfl
  | Expansion a b c ls => rfl
  | ExpansionCase a b ls => rfl
  | Attribute a b ls => rfl
  | Comment a ls => rfl

/-- Containment test performed by the findNode visitor hook:
span.start <= position and position < span.end. -/
def containsPos (s : Span) (position : Int) : Bool :=
  s.start ≤ position && position < s.stop

/-- Child nodes the default recursive traversal (RecursiveVisitor) descends
into: an element visits its attributes then its children, an expansion visits
its cases, every other kind is a leaf. -/
def Node.visitedChildren : Node → List Node
  | .Element _ attrs children _ _ => attrs ++ children
  | .Expansion _ _ cases _ => cases
  | _ => []

mutual

/-- Structural size of a raw node, used as the termination measure of the
position-lookup traversal. -/
def Node.size : Node → Nat
  | .Text .. => 1
  | .Expansion _ _ cases _ => 1 + Node.sizeList cases
  | .ExpansionCase _ expression _ => 1 + Node.sizeList expression
  | .Attribute .. => 1
  | .Element _ attrs children _ _ => 1 + Node.sizeList attrs + Node.sizeList children
  | .Comment .. => 1

/-- Total structural size of a list of raw nodes. -/
def Node.sizeList : List Node → Nat
  | [] => 0
  | n :: rest => Node.size n + Node.sizeList rest

end

theorem Node.sizeList_append (l1 l2 : List Node) :
    Node.sizeList (l1 ++ l2) = Node.sizeList l1 + Node.sizeList l2 := by
  induction l1 with
  | nil => simp [Node.sizeList]
  | cons n rest ih => simp [Node.sizeList, ih]; omega

theorem Node.sizeList_visitedChildren_lt (n : Node) :
    Node.sizeList n.visitedChildren < Node.size n := by
  cases n <;> simp [Node.visitedChildren, Node.size, Node.sizeList, Node.sizeList_append]

theorem Node.size_pos (n : Node) : 0 < Node.size n := by
  cases n <;> simp [Node.size]

mutual

/-- Fused embedding of findNode (tokenizer/ast.ts): the one-off visitor's
pre-visit hook records a node whose computed span contains the position and
returns a falsy value, so the default recursive dispatch continues into the
node's attributes and children; otherwise it returns a truthy value, which
prunes the subtree. The nodes recorded in visit order form the path. -/
def findNodeVisit (position : Int) (n : Node) : List Node :=
  if containsPos (spanOf n) position then
    n :: findNodeList position n.visitedChildren
  else
    []
termination_by Node.size n * 2
decreasing_by
  have := Node.sizeList_visitedChildren_lt n
  omega

/-- Traversal of a node list by the findNode visitor, via visitAll. -/
def findNodeList (position : Int) (nodes : List Node) : List Node :=
  match nodes with
  | [] => []
  | n :: rest => findNodeVisit position n ++ findNodeList position rest
termination_by Node.sizeList nodes * 2 + 1
decreasing_by
  all_goals simp only [Node.sizeList]
  all_goals have := Node.size_pos n
  all_goals omega

end

/-- Position lookup entry point (findNode in tokenizer/ast.ts): run the
recording visitor over the top-level node list and pair the accumulated path
with the queried position, as the returned AstPath does. -/
def findNode (nodes : List Node) (position : Int) : List Node × Int :=
  (findNodeList position nodes, position)

/-- Interpolation text node of the position-lookup scenario, occupying
offsets 11 to 16 of the scenario source. -/
def c2text : Node := .Text "\x7b\x7bx\x7d\x7d" ⟨11, "\x7b\x7bx\x7d\x7d"⟩

/-- Span element of the position-lookup scenario, starting at offset 5, with
its explicit end tag starting at offset 16. -/
def c2span : Node :=
  .Element "span" [] [c2text] ⟨5, "<span>\x7b\x7bx\x7d\x7d</span>"⟩ (some ⟨16, "</span>"⟩)

/-- Div element of the position-lookup scenario, starting at offset 0, with
its explicit end tag starting at offset 23. -/
def c2div : Node :=
  .Element "div" [] [c2span] ⟨0, "<div><span>\x7b\x7bx\x7d\x7d</span></div>"⟩
    (some ⟨23, "</div>"⟩)

/-- C2 counterexample: at position 13, strictly inside the interpolation text
of the scenario source, findNode returns only the two-node chain of the div
and span elements; its length is two, so the claimed three-node chain ending
in the interpolation text node does not hold. -/
theorem c2_counterexample :
    (findNode [c2div] 13).1 = [c2div, c2span] ∧
      ((findNode [c2div] 13).1).length ≠ 3 := by
  have h : (findNode [c2div] 13).1 = [c2div, c2span] := by
    norm_num [findNode, findNodeList, findNodeVisit, containsPos, spanOf,
      Node.visitedChildren, c2div, c2span, c2text, Node.locationSpan]
  exact ⟨h, by rw [h]; simp⟩

/-- C2 amended: for any position strictly inside the interpolation text of
the scenario source (strictly between offsets 11 and 16), findNode returns
the ancestor chain of the div and span elements only, outermost first, with
no unrelated sibling nodes; the interpolation text node itself never enters
the path because spanOf assigns every non-element node a zero-width span. -/
theorem c2_findNode_path (p : Int) (h1 : 11 < p) (h2 : p < 16) :
    (findNode [c2div] p).1 = [c2div, c2span] := by
  have hdiv : containsPos (spanOf c2div) p = true := by
    simp [containsPos, spanOf, c2div]
    omega
  have hspan : containsPos (spanOf c2span) p = true := by
    simp [containsPos, spanOf, c2span]
    omega
  have htext : ¬ (containsPos (spanOf c2text) p = true) := by
    simp [containsPos, spanOf, c2text, Node.locationSpan]
  have hvdiv : c2div.visitedChildren = [c2span] := rfl
  have hvspan : c2span.visitedChildren = [c2text] := rfl
  have v3 : findNodeVisit p c2text = [] := by
    rw [findNodeVisit, if_neg htext]
  have l3 : findNodeList p [c2text] = [] := by
    simp only [findNodeList]
    simp [v3]
  have v2 : findNodeVisit p c2span = [c2span] := by
    rw [findNodeVisit, if_pos hspan, hvspan, l3]
  have l2 : findNodeList p [c2span] = [c2span] := by
    simp only [findNodeList]
    simp [v2]
  have v1 : findNodeVisit p c2div = [c2div, c2span] := by
    rw [findNodeVisit, if_pos hdiv, hvdiv, l2]
  show findNodeList p [c2div] = [c2div, c2span]
  simp only [findNodeList]
  simp [v1]

theorem c2_findNode_path_witness :
    (11 : Int) < 13 ∧ (13 : Int) < 16 ∧ (findNode [c2div] 13).1 = [c2div, c2span] :=
  ⟨by norm_num, by norm_num, c2_findNode_path 13 (by norm_num) (by norm_num)⟩

/-- Visitor over raw nodes (tokenizer/ast.ts): one method per node kind plus
the optional generic pre-visit hook. Result values model JavaScript values by
their truthiness: none is a falsy result, some r is the truthy value r. -/
structure Visitor (α : Type) (Ctx : Type) where
  visit? : Option (Node → Ctx → Option α)
  visitElement : Node → Ctx → Option α
  visitAttribute : Node → Ctx → Option α
  visitText : Node → Ctx → Option α
  visitComment : Node → Ctx → Option α
  visitExpansion : Node → Ctx → Option α
  visitExpansionCase : Node → Ctx → Option α

/-- Double dispatch (Node.visit): visiting a node invokes the one visitor
method matching its kind, passing the caller-supplied context through
unchanged. -/
def Node.visit {α Ctx : Type} (n : Node) (visitor : Visitor α Ctx) (context : Ctx) : Option α :=
  match n with
  | .Text .. => visitor.visitText n context
  | .Expansion .. => visitor.visitExpansion n context
  | .ExpansionCase .. => visitor.visitExpansionCase n context
  | .Attribute .. => visitor.visitAttribute n context
  | .Element .. => visitor.visitElement n context
  | .Comment .. => visitor.visitComment n context

/-- visitAll (tokenizer/ast.ts): build the per-node visit function once (when
the pre-visit hook exists it runs first and a truthy hook result
short-circuits the kind-specific dispatch), then walk the node list in order,
pushing each truthy per-node result onto the result array. -/
def visitAll {α Ctx : Type} (visitor : Visitor α Ctx) (nodes : List Node) (context : Ctx) :
    List α :=
  let visit : Node → Option α :=
    match visitor.visit? with
    | some hook => fun ast => (hook ast context).orElse (fun _ => ast.visit visitor context)
    | none => fun ast => ast.visit visitor context
  nodes.foldl (fun result ast =>
    match visit ast with
    | some astResult => result ++ [astResult]
    | none => result) []

/-- Per-node result of visitAll as the specification words it: when the
visitor has a generic pre-visit hook, the hook runs first and a truthy hook
result becomes the node's result, skipping the kind-specific dispatch; when
the hook result is falsy, or no hook exists, the kind-specific dispatch
runs. -/
def nodeResultSpec {α Ctx : Type} (visitor : Visitor α Ctx) (context : Ctx) (n : Node) :
    Option α :=
  match visitor.visit? with
  | some hook =>
    match hook n context with
    | some r => some r
    | none => n.visit visitor context
  | none => n.visit visitor context

theorem foldl_push_eq_filterMap {α : Type} (f : Node → Option α) (nodes : List Node)
    (acc : List α) :
    nodes.foldl (fun result ast =>
      match f ast with
      | some astResult => result ++ [astResult]
      | none => result) acc = acc ++ nodes.filterMap f := by
  induction nodes generalizing acc with
  | nil => simp
  | cons n rest ih =>
    cases h : f n with
    | none => simp [List.foldl, h, ih]
    | some r => simp [List.foldl, h, ih]

/-- C6: for every visitor and node list, visitAll returns exactly the truthy
per-node results in input order, where a truthy pre-visit hook result is the
per-node result (skipping kind dispatch) and otherwise the kind-specific
dispatch result is used; falsy per-node results are omitted from the returned
list rather than pushed as placeholders. -/
theorem c6_visitAll_collects_truthy {α Ctx : Type} (visitor : Visitor α Ctx)
    (nodes : List Node) (context : Ctx) :
    visitAll visitor nodes context = nodes.filterMap (nodeResultSpec visitor context) := by
  have hfun : ∀ ast : Node,
      (match visitor.visit? with
        | some hook => fun ast => (hook ast context).orElse (fun _ => ast.visit visitor context)
        | none => fun ast => ast.visit visitor context) ast
      = nodeResultSpec visitor context ast := by
    intro ast
    cases hv : visitor.visit? with
    | none => simp [nodeResultSpec, hv]
    | some hook =>
      cases hh : hook ast context with
      | none => simp [nodeResultSpec, hv, hh, Option.orElse]
      | some r => simp [nodeResultSpec, hv, hh, Option.orElse]
  unfold visitAll
  rw [foldl_push_eq_filterMap]
  simp only [List.nil_append]
  exact List.filterMap_congr (fun ast _ => hfun ast)

end ast

namespace template

/-- Token types read by the embedded operations (tokenizer/lexer.ts): the
subset of the lexer's type tags the claims look up, plus a catch-all
constructor standing for every other tag. -/
inductive TokenType where
  | TAG_OPEN_START
  | TAG_OPEN_END
  | TAG_CLOSE
  | TEXT
  | ATTR_NAME
  | ATTR_VALUE
  | OTHER
deriving DecidableEq, Repr

/-- Lexical token: a type tag and its owned span. Token identity within a
document is its index in the document's ordered token list, and its current
rendered text is its span's text. -/
structure Token where
  type : TokenType
  locationSpan : LocationSpan
deriving DecidableEq, Repr

/-- Modelled from the spec: the owning Document ("Template") is an external
collaborator whose source file is not among the embedded ones; per the
specification it owns the canonical ordered token sequence and is the sole
authority on document order, and its iteration primitive, invoked as
_forEachTokenAfter(token, fn, inclusive false), applies fn to every token
strictly after the given token in document order. A document is embedded as
its ordered token list and a token is identified by its index. -/
def forEachTokenAfter (tokens : List Token) (i : Nat) (fn : Token → Token) : List Token :=
  tokens.take (i + 1) ++ (tokens.drop (i + 1)).map fn

/-- One text-replacement instruction (TextReplaceConfig): the target token,
given by its document index, and the replacement text. -/
structure TextReplaceConfig where
  token : Nat
  newText : String

/-- Mutation protocol (TemplateNode._replaceTextByTokens): process the given
configs in order, fully completing one before starting the next: compute the
length delta of the edit, replace the token's span text, then ask the
document to shift every token strictly after it in document order by the
delta. A config whose token index lies outside the document leaves the
document unchanged; that case is unreachable in the source, where the config
always carries one of the document's own token objects. -/
def replaceTextByTokens (tokens : List Token) (configs : List TextReplaceConfig) :
    List Token :=
  configs.foldl (fun tokens cfg =>
    match tokens.get? cfg.token with
    | none => tokens
    | some token =>
      let diff : Int := (cfg.newText.length : Int) - token.locationSpan.getLength
      let replaced := tokens.set cfg.token
        { token with locationSpan := token.locationSpan.replaceText cfg.newText }
      forEachTokenAfter replaced cfg.token
        (fun token => { token with locationSpan := token.locationSpan.moveBy diff }))
    tokens

theorem get?_append_middle {α : Type} (pre post : List α) (a : α) :
    (pre ++ a :: post).get? pre.length = some a := by
  induction pre with
  | nil => rfl
  | cons x rest ih => simpa using ih

theorem set_append_middle {α : Type} (pre post : List α) (a b : α) :
    (pre ++ a :: post).set pre.length b = pre ++ b :: post := by
  induction pre with
  | nil => rfl
  | cons x rest ih => simp [ih]

theorem take_append_middle {α : Type} (pre post : List α) (a : α) :
    (pre ++ a :: post).take (pre.length + 1) = pre ++ [a] := by
  induction pre with
  | nil => rfl
  | cons x rest ih => simpa using ih

theorem drop_append_middle {α : Type} (pre post : List α) (a : α) :
    (pre ++ a :: post).drop (pre.length + 1) = post := by
  induction pre with
  | nil => rfl
  | cons x rest ih => simp [ih]

/-- Shape of a single replacement on a document split around its target
token: the target keeps its start and takes the new text, the prefix is kept
as is, and the suffix is shifted by the length delta. -/
theorem replaceTextByTokens_single (pre post : List Token) (t : Token) (newText : String) :
    replaceTextByTokens (pre ++ t :: post) [⟨pre.length, newText⟩] =
      pre ++ { t with locationSpan := ⟨t.locationSpan.start, newText⟩ } ::
        post.map (fun tok => { tok with locationSpan := tok.locationSpan.moveBy ((newText.length : Int) - t.locationSpan.getLength) }) := by
  simp only [replaceTextByTokens, List.foldl, get?_append_middle]
  simp only [LocationSpan.replaceText, set_append_middle, forEachTokenAfter,
    take_append_middle, drop_append_middle]
  simp [List.append_assoc]

/-- C3: after _replaceTextByTokens with a single pair (token T, newText),
where T has old span length L0 and newText has length L1: every token
strictly before T in document order is unchanged, T keeps its start offset
while its span length becomes L1, and every token strictly after T has its
start offset increased by exactly L1 - L0 with its text left unchanged. -/
theorem c3_offset_shift (pre post : List Token) (t : Token) (newText : String) :
    (∀ j, j < pre.length →
      (replaceTextByTokens (pre ++ t :: post) [⟨pre.length, newText⟩]).get? j
        = (pre ++ t :: post).get? j) ∧
    ((replaceTextByTokens (pre ++ t :: post) [⟨pre.length, newText⟩]).get? pre.length
        = some { t with locationSpan := ⟨t.locationSpan.start, newText⟩ }) ∧
    (∀ j, pre.length < j →
      (replaceTextByTokens (pre ++ t :: post) [⟨pre.length, newText⟩]).get? j
        = ((pre ++ t :: post).get? j).map (fun tok => { tok with locationSpan :=
            ⟨tok.locationSpan.start + ((newText.length : Int) - t.locationSpan.getLength),
              tok.locationSpan.text⟩ })) := by
  rw [replaceTextByTokens_single]
  refine ⟨?_, ?_, ?_⟩
  · intro j hj
    rw [List.get?_append hj, List.get?_append hj]
  · exact get?_append_middle _ _ _
  · intro j hj
    have hlen : pre.length ≤ j := Nat.le_of_lt hj
    rw [List.get?_append_right hlen, List.get?_append_right hlen]
    rcases Nat.exists_eq_add_of_lt hj with ⟨k, hk⟩
    subst hk
    have hidx : pre.length + k + 1 - pre.length = k + 1 := by omega
    rw [hidx]
    simp [LocationSpan.moveBy]

/-- Concrete check of the offset-shift theorem: a three-token document where
the middle token's text of length one is replaced by a text of length three,
shifting the last token's start by two. -/
theorem c3_offset_shift_witness :
    (replaceTextByTokens
        ([⟨.TEXT, ⟨0, "a"⟩⟩] ++ ⟨.TEXT, ⟨1, "b"⟩⟩ :: [⟨.TEXT, ⟨2, "c"⟩⟩])
        [⟨[(⟨.TEXT, ⟨0, "a"⟩⟩ : Token)].length, "xyz"⟩]).get? 2
      = some ⟨.TEXT, ⟨4, "c"⟩⟩ := by
  rw [(c3_offset_shift [⟨.TEXT, ⟨0, "a"⟩⟩] [⟨.TEXT, ⟨2, "c"⟩⟩]
    ⟨.TEXT, ⟨1, "b"⟩⟩ "xyz").2.2 2 (by norm_num)]
  rfl

/-- Shift of a whole token by a signed delta: the mutation the document
applies to every token after an edit point (token.locationSpan.moveBy
in the source, acting on the token's owned span). -/
def shiftToken (d : Int) (token : Token) : Token :=
  { token with locationSpan := token.locationSpan.moveBy d }

/-- Mutable element node (ElementTemplateNode) reduced to what its embedded
operations read: the indices of its contributing tokens in the owning
document, in document order. -/
structure ElementTemplateNode where
  tokenIdxs : List Nat

/-- First-token-of-type lookup (TemplateNode.getFirstTokenOfType): the first
of the node's own tokens whose type tag equals the requested type, returned
by its document index. -/
def getFirstTokenOfType (doc : List Token) (node : ElementTemplateNode)
    (type : TokenType) : Option Nat :=
  node.tokenIdxs.find? (fun i =>
    match doc.get? i with
    | some token => token.type == type
    | none => false)

/-- Open-tag token lookup (getTagOpenStartToken): first token of type
TAG_OPEN_START. -/
def getTagOpenStartToken (doc : List Token) (node : ElementTemplateNode) : Option Nat :=
  getFirstTokenOfType doc node .TAG_OPEN_START

/-- Close-tag token lookup (getTagEndToken): first token of type
TAG_CLOSE. -/
def getTagEndToken (doc : List Token) (node : ElementTemplateNode) : Option Nat :=
  getFirstTokenOfType doc node .TAG_CLOSE

/-- changeTagName (ElementTemplateNode): a single _replaceTextByTokens call
carrying two pairs in order, the open-tag token text becoming
"<" ++ newTagName and then the close-tag token text becoming
"</" ++ newTagName ++ ">"; a missing tag token is a fatal error, as in the
source's OrThrow lookups. -/
def changeTagName (doc : List Token) (node : ElementTemplateNode)
    (newTagName : String) : Except String (List Token) :=
  match getTagOpenStartToken doc node, getTagEndToken doc node with
  | some openIdx, some closeIdx =>
    .ok (replaceTextByTokens doc
      [⟨openIdx, "<" ++ newTagName⟩, ⟨closeIdx, "</" ++ newTagName ++ ">"⟩])
  | _, _ => .error "Expected to find the tag tokens among the node tokens."

/-- Rendered source of a token sequence: the concatenation of every token's
current rendered text in document order. -/
def renderTokens (tokens : List Token) : String :=
  tokens.foldl (fun acc token => acc ++ token.locationSpan.text) ""

/-- Open-tag token of the tag-rename scenario source. -/
def c4open : Token := ⟨.TAG_OPEN_START, ⟨0, "<div"⟩⟩

/-- End-of-open-tag token of the tag-rename scenario source. -/
def c4openEnd : Token := ⟨.TAG_OPEN_END, ⟨4, ">"⟩⟩

/-- Close-tag token of the tag-rename scenario source. -/
def c4close : Token := ⟨.TAG_CLOSE, ⟨5, "</div>"⟩⟩

/-- The element node of the tag-rename scenario: its contributing tokens are
the three tokens of the source, at document indices zero through two. -/
def c4node : ElementTemplateNode := ⟨[0, 1, 2]⟩

theorem shiftToken_comp (rest : List Token) :
    (rest.map (shiftToken 1)).map (shiftToken 1) = rest.map (shiftToken 2) := by
  rw [List.map_map]
  have h : (shiftToken 1 ∘ shiftToken 1) = shiftToken 2 := by
    funext token
    simp [shiftToken, LocationSpan.moveBy]
    omega
  rw [h]

/-- C4: changeTagName on the element of source div-element performs the
open-tag edit and then the close-tag edit, each fully applied (with its
cascading shift) before the next, as the sequencing identity states; on the
scenario document the call yields the renamed span-element tokens with every
token after the close tag shifted by two, the rendered source of the element
tokens is the renamed source, and each of the two edits has delta one. -/
theorem c4_changeTagName_scenario (rest : List Token) (doc2 : List Token)
    (cfg1 cfg2 : TextReplaceConfig) :
    (replaceTextByTokens doc2 [cfg1, cfg2]
        = replaceTextByTokens (replaceTextByTokens doc2 [cfg1]) [cfg2]) ∧
    (changeTagName (c4open :: c4openEnd :: c4close :: rest) c4node "span"
        = .ok ([⟨.TAG_OPEN_START, ⟨0, "<span"⟩⟩, ⟨.TAG_OPEN_END, ⟨5, ">"⟩⟩,
            ⟨.TAG_CLOSE, ⟨6, "</span>"⟩⟩] ++ rest.map (shiftToken 2))) ∧
    (renderTokens [⟨.TAG_OPEN_START, ⟨0, "<span"⟩⟩, ⟨.TAG_OPEN_END, ⟨5, ">"⟩⟩,
        ⟨.TAG_CLOSE, ⟨6, "</span>"⟩⟩] = "<span></span>") ∧
    ((("<" ++ "span").length : Int) - c4open.locationSpan.getLength = 1) ∧
    ((("</" ++ "span" ++ ">").length : Int) - c4close.locationSpan.getLength = 1) := by
  refine ⟨rfl, ?_, by rfl, by rfl, by rfl⟩
  rw [← shiftToken_comp]
  rfl

/-- Mutable interpolation node (InterpolationTemplateNode) reduced to what
its embedded operations read: the indices of its contributing tokens in the
owning document, in document order. -/
structure InterpolationTemplateNode where
  tokenIdxs : List Nat

/-- Text-token lookup (getTextToken): the node's first token of type TEXT,
by document index; a missing one is a fatal error in the source (the OrThrow
lookup), modelled by the none result. -/
def getTextToken (doc : List Token) (node : InterpolationTemplateNode) : Option Nat :=
  node.tokenIdxs.find? (fun i =>
    match doc.get? i with
    | some token => token.type == .TEXT
    | none => false)

/-- getText (InterpolationTemplateNode): the current rendering of the text
token, read live from its span rather than from a cached copy. -/
def getText (doc : List Token) (node : InterpolationTemplateNode) : Option String :=
  match getTextToken doc node with
  | some i =>
    match doc.get? i with
    | some token => some token.locationSpan.text
    | none => none
  | none => none

/-- changeText (InterpolationTemplateNode): a single-token mutation
replacing the text token's text. -/
def changeText (doc : List Token) (node : InterpolationTemplateNode)
    (newText : String) : Except String (List Token) :=
  match getTextToken doc node with
  | some i => .ok (replaceTextByTokens doc [⟨i, newText⟩])
  | none => .error "Expected to find TEXT among tokens for InterpolationTemplateNode."

/-- Trim of the external string primitive (the source's String.prototype.trim
call): removes leading and trailing whitespace characters. Embedded
structurally over the string's character list so that it is kernel
computable. -/
def stringTrim (s : String) : String :=
  ⟨((s.data.dropWhile Char.isWhitespace).reverse.dropWhile Char.isWhitespace).reverse⟩

/-- trimText (InterpolationTemplateNode): changeText applied to the trimmed
current text. -/
def trimText (doc : List Token) (node : InterpolationTemplateNode) :
    Except String (List Token) :=
  match getText doc node with
  | some text => changeText doc node (stringTrim text)
  | none => .error "Expected to find TEXT among tokens for InterpolationTemplateNode."

theorem set_get?_self {α : Type} (l : List α) (i : Nat) (a : α) (h : l.get? i = some a) :
    l.set i a = l := by
  induction l generalizing i with
  | nil => cases h
  | cons x xs ih =>
    cases i with
    | zero =>
      injection h with h
      rw [List.set_cons_zero, h]
    | succ n =>
      rw [List.set_cons_succ, ih n h]

/-- Replacing a token's text by its current text is the identity on the
document: the length delta is zero, so no other token moves. -/
theorem replaceTextByTokens_noop (doc : List Token) (i : Nat) (token : Token)
    (hd : doc.get? i = some token) :
    replaceTextByTokens doc [⟨i, token.locationSpan.text⟩] = doc := by
  simp only [replaceTextByTokens, List.foldl, hd, LocationSpan.getLength,
    LocationSpan.replaceText, LocationSpan.moveBy, forEachTokenAfter]
  simp [set_get?_self doc i token hd, List.take_append_drop]

/-- C8: for every interpolation node whose current text is already trimmed,
trimText is a zero-delta edit that leaves the document, and so every token
span and offset as well as the node's text, exactly as before the call. -/
theorem c8_trimText_noop (doc : List Token) (node : InterpolationTemplateNode)
    (text : String) (h : getText doc node = some text) (ht : stringTrim text = text) :
    trimText doc node = .ok doc := by
  rcases hg : getTextToken doc node with _ | i
  · simp only [getText, hg] at h
    exact Option.noConfusion h
  · rcases hd : doc.get? i with _ | token
    · simp only [getText, hg, hd] at h
      exact Option.noConfusion h
    · have htext : token.locationSpan.text = text := by
        simp only [getText, hg, hd] at h
        exact Option.some.inj h
      simp only [trimText, h, ht, changeText, hg]
      rw [← htext]
      exact congrArg Except.ok (replaceTextByTokens_noop doc i token hd)

theorem c8_trimText_noop_witness :
    getText [⟨.TEXT, ⟨0, "x"⟩⟩] ⟨[0]⟩ = some "x" ∧ stringTrim "x" = "x" ∧
      trimText [⟨.TEXT, ⟨0, "x"⟩⟩] ⟨[0]⟩ = .ok [⟨.TEXT, ⟨0, "x"⟩⟩] :=
  ⟨by rfl, by rfl, c8_trimText_noop _ _ "x" (by rfl) (by rfl)⟩

/-- getNextTemplateSibling (TemplateNode): with a parent, locate self by
identity in the parent's children and return the following child (none past
the end); with no parent, the same lookup runs against the Document's root
list; a missing self is a fatal invariant error. Node identity is embedded
as a numeric id, and the source's findIndex result of minus one is the none
case of findIdx?. -/
def getNextTemplateSibling (parentChildren : Option (List Nat)) (roots : List Nat)
    (self : Nat) : Except String (Option Nat) :=
  match parentChildren with
  | some children =>
    match children.findIdx? (fun child => child == self) with
    | none => .error "Expected to have found self in parent children."
    | some index => .ok (children.get? (index + 1))
  | none =>
    match roots.findIdx? (fun child => child == self) with
    | none => .error "Expected to have found self (root) in template roots."
    | some index => .ok (roots.get? (index + 1))

theorem findIdx?_beq_not_mem (l : List Nat) (self : Nat) (h : self ∉ l) :
    l.findIdx? (fun child => child == self) = none := by
  rw [List.findIdx?_eq_none_iff]
  intro x hx
  simp only [beq_eq_false_iff_ne, ne_eq]
  intro hxx
  exact h (hxx ▸ hx)

theorem findIdx?_beq_middle (pre post : List Nat) (self : Nat) (h : self ∉ pre) :
    (pre ++ self :: post).findIdx? (fun child => child == self) = some pre.length := by
  induction pre with
  | nil => simp [List.findIdx?_cons]
  | cons x xs ih =>
    have hx : (x == self) = false := by
      simp only [beq_eq_false_iff_ne, ne_eq]
      intro hxx
      exact h (hxx ▸ List.mem_cons_self x xs)
    have ih2 := ih (fun hm => h (List.mem_cons_of_mem _ hm))
    simp [List.findIdx?_cons, hx, ih2]

theorem get?_append_middle_succ {α : Type} (pre post : List α) (a : α) :
    (pre ++ a :: post).get? (pre.length + 1) = post.head? := by
  induction pre with
  | nil => cases post <;> rfl
  | cons x xs ih => simpa using ih

/-- C9: getNextTemplateSibling locates the node by identity in the parent's
children when a parent exists, and in the Document's root list otherwise,
returning the element after the node (none when the node is last); when the
node is missing from the searched list, the operation is a fatal error
rather than a normal miss. -/
theorem c9_getNextTemplateSibling_cases (children roots pre post rpre rpost : List Nat)
    (self : Nat) :
    (self ∉ children →
      getNextTemplateSibling (some children) roots self
        = .error "Expected to have found self in parent children.") ∧
    (self ∉ pre →
      getNextTemplateSibling (some (pre ++ self :: post)) roots self = .ok post.head?) ∧
    (self ∉ roots →
      getNextTemplateSibling none roots self
        = .error "Expected to have found self (root) in template roots.") ∧
    (self ∉ rpre →
      getNextTemplateSibling none (rpre ++ self :: rpost) self = .ok rpost.head?) := by
  refine ⟨fun h => ?_, fun h => ?_, fun h => ?_, fun h => ?_⟩
  · simp only [getNextTemplateSibling, findIdx?_beq_not_mem children self h]
  · simp only [getNextTemplateSibling, findIdx?_beq_middle pre post self h,
      get?_append_middle_succ]
  · simp only [getNextTemplateSibling, findIdx?_beq_not_mem roots self h]
  · simp only [getNextTemplateSibling, findIdx?_beq_middle rpre rpost self h,
      get?_append_middle_succ]

theorem c9_getNextTemplateSibling_witness :
    ((5 : Nat) ∉ [1, 2]) ∧
    (getNextTemplateSibling (some [1, 2]) [] 5
      = .error "Expected to have found self in parent children.") ∧
    (getNextTemplateSibling (some ([1] ++ 7 :: [3])) [] 7 = .ok (some 3)) ∧
    (getNextTemplateSibling none [] 5
      = .error "Expected to have found self (root) in template roots.") ∧
    (getNextTemplateSibling none ([] ++ 4 :: []) 4 = .ok none) :=
  ⟨by decide,
    (c9_getNextTemplateSibling_cases [1, 2] [] [] [] [] [] 5).1 (by decide),
    (c9_getNextTemplateSibling_cases [] [] [1] [3] [] [] 7).2.1 (by decide),
    (c9_getNextTemplateSibling_cases [] [] [] [] [] [] 5).2.2.1 (by decide),
    (c9_getNextTemplateSibling_cases [] [] [] [] [] [] 4).2.2.2 (by decide)⟩

/-- Parent back-reference of a mutable template node
(TemplateNode.parentTemplateNode): optional, initially absent. -/
structure TemplateNodeParent where
  parentTemplateNode : Option Nat

/-- setTemplateParent (TemplateNode): a plain unconditional assignment of the
parent back-reference; no check of a previously assigned parent is
performed. -/
def setTemplateParent (node : TemplateNodeParent) (templateParent : Nat) :
    TemplateNodeParent :=
  { node with parentTemplateNode := some templateParent }

/-- getTemplateParent (TemplateNode): the currently assigned parent, if
any. -/
def getTemplateParent (node : TemplateNodeParent) : Option Nat :=
  node.parentTemplateNode

/-- C10: setTemplateParent is an unconditional, unchecked assignment: for any
node and any two parents p1 and p2, assigning p1 and then p2 is total (so no
error is ever raised) and getTemplateParent afterwards returns p2; the
write-once parent rule is not enforced by the operation itself. -/
theorem c10_setTemplateParent_unchecked (node : TemplateNodeParent) (p1 p2 : Nat) :
    getTemplateParent (setTemplateParent (setTemplateParent node p1) p2) = some p2 := rfl

/-- The five attribute classification type guards, imported by
template-nodes.ts from a file that is not among the embedded sources; they
are kept abstract as boolean predicates over attributes, so every statement
below holds for the actual guards. -/
structure AttrGuards (α : Type) where
  isTextAttribute : α → Bool
  isBoundAttribute : α → Bool
  isBoundEvent : α → Bool
  isBananaInTheBox : α → Bool
  isReference : α → Bool

/-- The five attribute buckets of an element-like node. -/
structure AttrBuckets (α : Type) where
  textAttributes : List α
  boundAttributes : List α
  boundEvents : List α
  bananaInTheBoxes : List α
  references : List α

/-- Classification loop of the ElementLikeTemplateNode constructor: each
attribute of the flat list is pushed onto the bucket of the first matching
guard, in list order, and an attribute matching none of the five guards is a
fatal construction error. -/
def classifyAttributes {α : Type} (g : AttrGuards α) (b : AttrBuckets α) :
    List α → Except String (AttrBuckets α)
  | [] => .ok b
  | attr :: rest =>
    if g.isTextAttribute attr then
      classifyAttributes g { b with textAttributes := b.textAttributes ++ [attr] } rest
    else if g.isBoundAttribute attr then
      classifyAttributes g { b with boundAttributes := b.boundAttributes ++ [attr] } rest
    else if g.isBoundEvent attr then
      classifyAttributes g { b with boundEvents := b.boundEvents ++ [attr] } rest
    else if g.isBananaInTheBox attr then
      classifyAttributes g { b with bananaInTheBoxes := b.bananaInTheBoxes ++ [attr] } rest
    else if g.isReference attr then
      classifyAttributes g { b with references := b.references ++ [attr] } rest
    else .error "Unexpected type of attribute."

/-- Bucket construction performed by the ElementLikeTemplateNode constructor:
classification of the whole attribute list starting from five empty
buckets. -/
def elementLikeBuckets {α : Type} (g : AttrGuards α) (allAttributes : List α) :
    Except String (AttrBuckets α) :=
  classifyAttributes g ⟨[], [], [], [], []⟩ allAttributes

/-- Membership condition of the text-attribute bucket. -/
def textPred {α : Type} (g : AttrGuards α) (a : α) : Bool :=
  g.isTextAttribute a

/-- Membership condition of the bound-attribute bucket: first guard failing,
second holding. -/
def boundPred {α : Type} (g : AttrGuards α) (a : α) : Bool :=
  !g.isTextAttribute a && g.isBoundAttribute a

/-- Membership condition of the bound-event bucket. -/
def eventPred {α : Type} (g : AttrGuards α) (a : α) : Bool :=
  !g.isTextAttribute a && !g.isBoundAttribute a && g.isBoundEvent a

/-- Membership condition of the two-way-binding bucket. -/
def bananaPred {α : Type} (g : AttrGuards α) (a : α) : Bool :=
  !g.isTextAttribute a && !g.isBoundAttribute a && !g.isBoundEvent a && g.isBananaInTheBox a

/-- Membership condition of the template-reference bucket. -/
def refPred {α : Type} (g : AttrGuards α) (a : α) : Bool :=
  !g.isTextAttribute a && !g.isBoundAttribute a && !g.isBoundEvent a &&
    !g.isBananaInTheBox a && g.isReference a

/-- An attribute satisfies at least one of the five classification guards. -/
def anyGuardPred {α : Type} (g : AttrGuards α) (a : α) : Bool :=
  g.isTextAttribute a || g.isBoundAttribute a || g.isBoundEvent a ||
    g.isBananaInTheBox a || g.isReference a

theorem classifyAttributes_ok {α : Type} (g : AttrGuards α) (l : List α) :
    ∀ b b', classifyAttributes g b l = .ok b' →
      b'.textAttributes = b.textAttributes ++ l.filter (textPred g) ∧
      b'.boundAttributes = b.boundAttributes ++ l.filter (boundPred g) ∧
      b'.boundEvents = b.boundEvents ++ l.filter (eventPred g) ∧
      b'.bananaInTheBoxes = b.bananaInTheBoxes ++ l.filter (bananaPred g) ∧
      b'.references = b.references ++ l.filter (refPred g) := by
  induction l with
  | nil =>
    intro b b' h
    injection h with h
    subst h
    simp
  | cons a rest ih =>
    intro b b' h
    cases ht : g.isTextAttribute a with
    | true =>
      simp only [classifyAttributes, ht, if_true] at h
      have := ih _ _ h
      simp only [List.filter_cons, textPred, boundPred, eventPred, bananaPred, refPred,
        ht, Bool.not_true, Bool.false_and, Bool.and_self] at this ⊢
      simpa [List.append_assoc] using this
    | false =>
      cases hb : g.isBoundAttribute a with
      | true =>
        simp only [classifyAttributes, ht, hb, Bool.false_eq_true, if_false, if_true] at h
        have := ih _ _ h
        simp only [List.filter_cons, textPred, boundPred, eventPred, bananaPred, refPred,
          ht, hb, Bool.not_false, Bool.true_and, Bool.not_true, Bool.false_and,
          Bool.and_false, Bool.and_true] at this ⊢
        simpa [List.append_assoc] using this
      | false =>
        cases he : g.isBoundEvent a with
        | true =>
          simp only [classifyAttributes, ht, hb, he, Bool.false_eq_true, if_false,
            if_true] at h
          have := ih _ _ h
          simp only [List.filter_cons, textPred, boundPred, eventPred, bananaPred, refPred,
            ht, hb, he, Bool.not_false, Bool.true_and, Bool.not_true, Bool.false_and,
            Bool.and_false, Bool.and_true] at this ⊢
          simpa [List.append_assoc] using this
        | false =>
          cases hba : g.isBananaInTheBox a with
          | true =>
            simp only [classifyAttributes, ht, hb, he, hba, Bool.false_eq_true, if_false,
              if_true] at h
            have := ih _ _ h
            simp only [List.filter_cons, textPred, boundPred, eventPred, bananaPred,
              refPred, ht, hb, he, hba, Bool.not_false, Bool.true_and, Bool.not_true,
              Bool.false_and, Bool.and_false, Bool.and_true] at this ⊢
            simpa [List.append_assoc] using this
          | false =>
            cases hr : g.isReference a with
            | true =>
              simp only [classifyAttributes, ht, hb, he, hba, hr, Bool.false_eq_true,
                if_false, if_true] at h
              have := ih _ _ h
              simp only [List.filter_cons, textPred, boundPred, eventPred, bananaPred,
                refPred, ht, hb, he, hba, hr, Bool.not_false, Bool.true_and,
                Bool.not_true, Bool.false_and, Bool.and_false, Bool.and_true] at this ⊢
              simpa [List.append_assoc] using this
            | false =>
              simp only [classifyAttributes, ht, hb, he, hba, hr, Bool.false_eq_true,
                if_false] at h
              exact Except.noConfusion h

theorem classifyAttributes_error_iff {α : Type} (g : AttrGuards α) (l : List α) :
    ∀ b, (∃ msg, classifyAttributes g b l = .error msg)
      ↔ ∃ a ∈ l, anyGuardPred g a = false := by
  induction l with
  | nil =>
    intro b
    simp [classifyAttributes]
  | cons a rest ih =>
    intro b
    cases ht : g.isTextAttribute a with
    | true =>
      simp only [classifyAttributes, ht, if_true]
      rw [ih]
      simp [anyGuardPred, ht]
    | false =>
      cases hb : g.isBoundAttribute a with
      | true =>
        simp only [classifyAttributes, ht, hb, Bool.false_eq_true, if_false, if_true]
        rw [ih]
        simp [anyGuardPred, ht, hb]
      | false =>
        cases he : g.isBoundEvent a with
        | true =>
          simp only [classifyAttributes, ht, hb, he, Bool.false_eq_true, if_false, if_true]
          rw [ih]
          simp [anyGuardPred, ht, hb, he]
        | false =>
          cases hba : g.isBananaInTheBox a with
          | true =>
            simp only [classifyAttributes, ht, hb, he, hba, Bool.false_eq_true, if_false,
              if_true]
            rw [ih]
            simp [anyGuardPred, ht, hb, he, hba]
          | false =>
            cases hr : g.isReference a with
            | true =>
              simp only [classifyAttributes, ht, hb, he, hba, hr, Bool.false_eq_true,
                if_false, if_true]
              rw [ih]
              simp [anyGuardPred, ht, hb, he, hba, hr]
            | false =>
              simp only [classifyAttributes, ht, hb, he, hba, hr, Bool.false_eq_true,
                if_false]
              constructor
              · intro _
                exact ⟨a, List.mem_cons_self a rest, by
                  simp [anyGuardPred, ht, hb, he, hba, hr]⟩
              · intro _
                exact ⟨"Unexpected type of attribute.", rfl⟩

theorem filters_perm {α : Type} (g : AttrGuards α) (l : List α)
    (hall : ∀ a ∈ l, anyGuardPred g a = true) :
    (l.filter (textPred g) ++ (l.filter (boundPred g) ++ (l.filter (eventPred g) ++
      (l.filter (bananaPred g) ++ l.filter (refPred g))))).Perm l := by
  induction l with
  | nil => simp
  | cons a rest ih =>
    have ha := hall a (List.mem_cons_self a rest)
    have ih2 := ih (fun x hx => hall x (List.mem_cons_of_mem a hx))
    cases ht : g.isTextAttribute a with
    | true =>
      simp only [List.filter_cons, textPred, boundPred, eventPred, bananaPred, refPred,
        ht, Bool.not_true, Bool.false_and, if_true, Bool.false_eq_true, if_false]
      exact (ih2.cons a)
    | false =>
      cases hb : g.isBoundAttribute a with
      | true =>
        simp only [List.filter_cons, textPred, boundPred, eventPred, bananaPred, refPred,
          ht, hb, Bool.not_false, Bool.true_and, Bool.not_true, Bool.false_and,
          Bool.and_false, Bool.and_true, if_true, Bool.false_eq_true, if_false]
        exact List.perm_middle.trans (ih2.cons a)
      | false =>
        cases he : g.isBoundEvent a with
        | true =>
          simp only [List.filter_cons, textPred, boundPred, eventPred, bananaPred, refPred,
            ht, hb, he, Bool.not_false, Bool.true_and, Bool.not_true, Bool.false_and,
            Bool.and_false, Bool.and_true, if_true, Bool.false_eq_true, if_false]
          exact (List.Perm.append_left _ List.perm_middle).trans
            (List.perm_middle.trans (ih2.cons a))
        | false =>
          cases hba : g.isBananaInTheBox a with
          | true =>
            simp only [List.filter_cons, textPred, boundPred, eventPred, bananaPred,
              refPred, ht, hb, he, hba, Bool.not_false, Bool.true_and, Bool.not_true,
              Bool.false_and, Bool.and_false, Bool.and_true, if_true, Bool.false_eq_true,
              if_false]
            exact (List.Perm.append_left _ (List.Perm.append_left _ List.perm_middle)).trans
              ((List.Perm.append_left _ List.perm_middle).trans
                (List.perm_middle.trans (ih2.cons a)))
          | false =>
            have hr : g.isReference a = true := by
              simp [anyGuardPred, ht, hb, he, hba] at ha
              exact ha
            simp only [List.filter_cons, textPred, boundPred, eventPred, bananaPred,
              refPred, ht, hb, he, hba, hr, Bool.not_false, Bool.true_and, Bool.not_true,
              Bool.false_and, Bool.and_false, Bool.and_true, if_true, Bool.false_eq_true,
              if_false]
            exact (List.Perm.append_left _ (List.Perm.append_left _
                (List.Perm.append_left _ List.perm_middle))).trans
              ((List.Perm.append_left _ (List.Perm.append_left _ List.perm_middle)).trans
                ((List.Perm.append_left _ List.perm_middle).trans
                  (List.perm_middle.trans (ih2.cons a))))

theorem filter_disjoint_of_incompatible {α : Type} (l : List α) (p q : α → Bool)
    (h : ∀ a, p a = true → q a = true → False) :
    (l.filter p).Disjoint (l.filter q) := by
  intro x hx hy
  exact h x (List.of_mem_filter hx) (List.of_mem_filter hy)

/-- Pairwise disjointness of the five attribute buckets. -/
def BucketsDisjoint {α : Type} (b : AttrBuckets α) : Prop :=
  b.textAttributes.Disjoint b.boundAttributes ∧
  b.textAttributes.Disjoint b.boundEvents ∧
  b.textAttributes.Disjoint b.bananaInTheBoxes ∧
  b.textAttributes.Disjoint b.references ∧
  b.boundAttributes.Disjoint b.boundEvents ∧
  b.boundAttributes.Disjoint b.bananaInTheBoxes ∧
  b.boundAttributes.Disjoint b.references ∧
  b.boundEvents.Disjoint b.bananaInTheBoxes ∧
  b.boundEvents.Disjoint b.references ∧
  b.bananaInTheBoxes.Disjoint b.references

/-- C7: for every element-like node constructed from an attribute list, the
five buckets are pairwise disjoint and their concatenation is a permutation
of the full attribute list, and construction is a fatal error exactly when
some attribute satisfies none of the five classification guards. -/
theorem c7_attribute_partition {α : Type} (g : AttrGuards α) (l : List α) :
    (∀ b, elementLikeBuckets g l = .ok b →
      BucketsDisjoint b ∧
      (b.textAttributes ++ (b.boundAttributes ++ (b.boundEvents ++
        (b.bananaInTheBoxes ++ b.references)))).Perm l) ∧
    ((∃ msg, elementLikeBuckets g l = .error msg)
      ↔ ∃ a ∈ l, anyGuardPred g a = false) := by
  constructor
  · intro b hok
    obtain ⟨h1, h2, h3, h4, h5⟩ := classifyAttributes_ok g l _ b hok
    simp only [List.nil_append] at h1 h2 h3 h4 h5
    have hall : ∀ a ∈ l, anyGuardPred g a = true := by
      intro a hmem
      by_contra hfa
      have : ∃ x ∈ l, anyGuardPred g x = false :=
        ⟨a, hmem, by cases hx : anyGuardPred g a with
          | true => exact absurd hx hfa
          | false => rfl⟩
      obtain ⟨msg, hmsg⟩ := (classifyAttributes_error_iff g l ⟨[], [], [], [], []⟩).mpr this
      rw [elementLikeBuckets] at hok
      rw [hok] at hmsg
      exact Except.noConfusion hmsg
    constructor
    · refine ⟨?_, ?_, ?_, ?_, ?_, ?_, ?_, ?_, ?_, ?_⟩
      · rw [h1, h2]
        refine filter_disjoint_of_incompatible l _ _ (fun a hp hq => ?_)
        simp [textPred, boundPred] at hp hq
        simp_all
      · rw [h1, h3]
        refine filter_disjoint_of_incompatible l _ _ (fun a hp hq => ?_)
        simp [textPred, eventPred] at hp hq
        simp_all
      · rw [h1, h4]
        refine filter_disjoint_of_incompatible l _ _ (fun a hp hq => ?_)
        simp [textPred, bananaPred] at hp hq
        simp_all
      · rw [h1, h5]
        refine filter_disjoint_of_incompatible l _ _ (fun a hp hq => ?_)
        simp [textPred, refPred] at hp hq
        simp_all
      · rw [h2, h3]
        refine filter_disjoint_of_incompatible l _ _ (fun a hp hq => ?_)
        simp [boundPred, eventPred] at hp hq
        simp_all
      · rw [h2, h4]
        refine filter_disjoint_of_incompatible l _ _ (fun a hp hq => ?_)
        simp [boundPred, bananaPred] at hp hq
        simp_all
      · rw [h2, h5]
        refine filter_disjoint_of_incompatible l _ _ (fun a hp hq => ?_)
        simp [boundPred, refPred] at hp hq
        simp_all
      · rw [h3, h4]
        refine filter_disjoint_of_incompatible l _ _ (fun a hp hq => ?_)
        simp [eventPred, bananaPred] at hp hq
        simp_all
      · rw [h3, h5]
        refine filter_disjoint_of_incompatible l _ _ (fun a hp hq => ?_)
        simp [eventPred, refPred] at hp hq
        simp_all
      · rw [h4, h5]
        refine filter_disjoint_of_incompatible l _ _ (fun a hp hq => ?_)
        simp [bananaPred, refPred] at hp hq
        simp_all
    · rw [h1, h2, h3, h4, h5]
      exact filters_perm g l hall
  · exact classifyAttributes_error_iff g l ⟨[], [], [], [], []⟩

/-- Concrete classification guards used for the partition witness: five
disjoint numeric tags. -/
def c7guards : AttrGuards Nat :=
  ⟨fun a => a == 0, fun a => a == 1, fun a => a == 2, fun a => a == 3, fun a => a == 4⟩

theorem c7_attribute_partition_witness :
    (elementLikeBuckets c7guards [0, 1, 4] = .ok ⟨[0], [1], [], [], [4]⟩) ∧
    BucketsDisjoint (⟨[0], [1], [], [], [4]⟩ : AttrBuckets Nat) ∧
    (([0] ++ ([1] ++ ([] ++ ([] ++ [4])))) : List Nat).Perm [0, 1, 4] :=
  ⟨rfl,
    ((c7_attribute_partition c7guards [0, 1, 4]).1 ⟨[0], [1], [], [], [4]⟩ rfl).1,
    ((c7_attribute_partition c7guards [0, 1, 4]).1 ⟨[0], [1], [], [], [4]⟩ rfl).2⟩

/-- Mutable template-node tree reduced to its structural children
(getTemplateChildren); every concrete leaf kind of the source returns an
empty list, an element-like node returns its ordered children. -/
inductive TemplateNode where
  | mk (children : List TemplateNode)

/-- getTemplateChildren (TemplateNode): the node's structural children. -/
def TemplateNode.getTemplateChildren : TemplateNode → List TemplateNode
  | .mk children => children

mutual

/-- Structural size of a mutable node, the termination measure of the
breadth-first queue loops. -/
def TemplateNode.size : TemplateNode → Nat
  | .mk children => 1 + TemplateNode.sizeList children

/-- Total structural size of a list of mutable nodes. -/
def TemplateNode.sizeList : List TemplateNode → Nat
  | [] => 0
  | n :: rest => TemplateNode.size n + TemplateNode.sizeList rest

end

theorem TemplateNode.sizeList_append_add (l1 l2 : List TemplateNode) :
    TemplateNode.sizeList (l1 ++ l2)
      = TemplateNode.sizeList l1 + TemplateNode.sizeList l2 := by
  induction l1 with
  | nil => simp [TemplateNode.sizeList]
  | cons n rest ih =>
    simp [TemplateNode.sizeList, ih]
    omega

theorem TemplateNode.size_positive (n : TemplateNode) : 0 < TemplateNode.size n := by
  cases n
  simp [TemplateNode.size]

theorem TemplateNode.sizeList_children_lt (n : TemplateNode) :
    TemplateNode.sizeList n.getTemplateChildren < TemplateNode.size n := by
  cases n
  simp [TemplateNode.getTemplateChildren, TemplateNode.size]

/-- Queue loop of TemplateNode.getDescendants: pop the head node, push its
children at the back of the queue, and record the node only when a predicate
was supplied and holds for it, exactly as the source condition
"predicate is non-null and predicate(node)" does. -/
def getDescendantsLoop (predicate : Option (TemplateNode → Bool)) :
    List TemplateNode → List TemplateNode → List TemplateNode
  | [], result => result
  | node :: rest, result =>
    if (match predicate with
        | some p => p node
        | none => false) then
      getDescendantsLoop predicate (rest ++ node.getTemplateChildren) (result ++ [node])
    else
      getDescendantsLoop predicate (rest ++ node.getTemplateChildren) result
termination_by queue _ => TemplateNode.sizeList queue
decreasing_by
  all_goals simp only [TemplateNode.sizeList_append_add, TemplateNode.sizeList]
  all_goals have := TemplateNode.sizeList_children_lt node
  all_goals omega

/-- getDescendants (TemplateNode): breadth-first walk over
getTemplateChildren starting from the node's direct children, not including
the node itself, collecting the matches. -/
def TemplateNode.getDescendants (predicate : Option (TemplateNode → Bool))
    (n : TemplateNode) : List TemplateNode :=
  getDescendantsLoop predicate n.getTemplateChildren []

/-- Queue loop of TemplateNode.getDescendant: like the getDescendants loop,
but returning the first recorded node immediately. -/
def getDescendantLoop (predicate : Option (TemplateNode → Bool)) :
    List TemplateNode → Option TemplateNode
  | [] => none
  | node :: rest =>
    if (match predicate with
        | some p => p node
        | none => false) then
      some node
    else
      getDescendantLoop predicate (rest ++ node.getTemplateChildren)
termination_by queue => TemplateNode.sizeList queue
decreasing_by
  simp only [TemplateNode.sizeList_append_add, TemplateNode.sizeList]
  have := TemplateNode.sizeList_children_lt n
  omega

/-- getDescendant (TemplateNode): breadth-first walk over
getTemplateChildren starting from the node's direct children, returning the
first match. -/
def TemplateNode.getDescendant (predicate : Option (TemplateNode → Bool))
    (n : TemplateNode) : Option TemplateNode :=
  getDescendantLoop predicate n.getTemplateChildren

theorem getDescendantsLoop_none (queue : List TemplateNode)
    (result : List TemplateNode) :
    getDescendantsLoop none queue result = result := by
  have H : ∀ k queue result, TemplateNode.sizeList queue ≤ k →
      getDescendantsLoop none queue result = result := by
    intro k
    induction k with
    | zero =>
      intro queue result h
      cases queue with
      | nil => simp only [getDescendantsLoop]
      | cons n rest =>
        have := TemplateNode.size_positive n
        simp [TemplateNode.sizeList] at h
        omega
    | succ k ih =>
      intro queue result h
      cases queue with
      | nil => simp only [getDescendantsLoop]
      | cons n rest =>
        simp only [getDescendantsLoop, if_false]
        apply ih
        have h1 := TemplateNode.sizeList_children_lt n
        simp only [TemplateNode.sizeList_append_add, TemplateNode.sizeList] at h ⊢
        omega
  exact H (TemplateNode.sizeList queue) queue result le_rfl

theorem getDescendantLoop_none (queue : List TemplateNode) :
    getDescendantLoop none queue = none := by
  have H : ∀ k queue, TemplateNode.sizeList queue ≤ k →
      getDescendantLoop none queue = none := by
    intro k
    induction k with
    | zero =>
      intro queue h
      cases queue with
      | nil => simp only [getDescendantLoop]
      | cons n rest =>
        have := TemplateNode.size_positive n
        simp [TemplateNode.sizeList] at h
        omega
    | succ k ih =>
      intro queue h
      cases queue with
      | nil => simp only [getDescendantLoop]
      | cons n rest =>
        simp only [getDescendantLoop, if_false]
        apply ih
        have h1 := TemplateNode.sizeList_children_lt n
        simp only [TemplateNode.sizeList_append_add, TemplateNode.sizeList] at h ⊢
        omega
  exact H (TemplateNode.sizeList queue) queue le_rfl

/-- C1 divergence: getDescendants called with no predicate returns the empty
list and getDescendant called with no predicate returns none, for every
node, whatever its descendants are: the loop records a node only when a
predicate is present, so unfiltered calls never collect anything. In
particular, on a node with one child the claimed results (the one-element
descendant list and that first descendant) are not produced. -/
theorem c1_unfiltered_returns_nothing (n : TemplateNode) :
    TemplateNode.getDescendants none n = [] ∧
      TemplateNode.getDescendant none n = none ∧
      TemplateNode.getDescendants none (.mk [.mk []]) = [] ∧
      TemplateNode.getDescendant none (.mk [.mk []]) = none :=
  ⟨getDescendantsLoop_none _ _, getDescendantLoop_none _,
    getDescendantsLoop_none _ _, getDescendantLoop_none _⟩

end template
